import Mathlib

/-!
The template fragments and the driver of `cmd/mock-expect-gen/gen.go`.

The generator renders a Go source file from a set of named templates that are
executed by Go's `html/template` engine.  Every `define` block of `gen.go` is
embedded here as a pure function from its argument to the text it writes; the
white space that the trim markers `{{-` and `-}}` remove is already removed in
the string literals below, and every brace of the generated text is written
`\x7b` / `\x7d`.

Go strings are modelled by `String`; the templates only copy, compare and
escape them rune by rune.
-/

set_option maxRecDepth 8000

namespace MockExpectGen

/-! ## Data model -/

/-- Modelled from the spec: the record `mockapi.Endpoint` is declared in the root
package of the repository, which is not part of `cmd/mock-expect-gen`; its fields
are the ones the templates select (`.Spec.Method`, `.Spec.Path`,
`.Spec.PathParameters`, `.Spec.QueryParams`, `.Spec.Headers`, `.Spec.BodyType`,
`.Spec.ResponseType`), with the types of section 3 of the specification. -/
structure Endpoint where
  Method : String
  Path : String
  PathParameters : List String
  QueryParams : List String
  Headers : List String
  BodyType : String
  ResponseType : String
deriving DecidableEq, Repr

/-- The Go struct `tplEndpoint`. -/
structure tplEndpoint where
  Name : String
  Spec : Endpoint
deriving DecidableEq, Repr

/-- The Go struct `tplArgs`. -/
structure tplArgs where
  CLIArgs : String
  Package : String
  BuildTags : List String
  Receiver : String
  Endpoints : List tplEndpoint
deriving DecidableEq, Repr

/-! ## The escaper of `html/template`

`gen.go` imports `html/template`, not `text/template`.  None of the templates
contains a `<`, so the whole text is in the HTML text context and every action
that prints a value (`{{ . }}`, `{{.Name}}`, `{{.Spec.Path}}`, ...) is piped
through the HTML escaper of the standard library, whose replacement table is
reproduced here.  Static template text is copied unchanged. -/

/-- The table `htmlReplacementTable` of `html/template/html.go`: the replacement
of a rune, when it has one. -/
def htmlReplacementTable (c : Char) : Option String :=
  if c.toNat = 0 then some (String.singleton (Char.ofNat 65533))
  else if c.toNat = 34 then some "&#34;"
  else if c.toNat = 38 then some "&amp;"
  else if c.toNat = 39 then some "&#39;"
  else if c.toNat = 43 then some "&#43;"
  else if c.toNat = 60 then some "&lt;"
  else if c.toNat = 62 then some "&gt;"
  else none

/-- One rune as the escaper writes it. -/
def htmlEscapeRune (c : Char) : List Char :=
  match htmlReplacementTable c with
  | some r => r.toList
  | none => [c]

/-- The escaper `htmlEscaper` applied to a string value in the text context. -/
def htmlEscaper (s : String) : String :=
  String.mk (s.toList.flatMap htmlEscapeRune)

/-- Truth of a slice in `{{ if . }}`: a slice is true when it is not empty. -/
def truth (xs : List String) : Bool :=
  !xs.isEmpty

/-! ## The fragments -/

/-- The body of `{{ range . }}` in `build-tags`, for the remaining tags. -/
def buildTagLines : List String → String
  | [] => ""
  | t :: ts => "// +build " ++ htmlEscaper t ++ "\n" ++ buildTagLines ts

/-- Template `build-tags`. -/
def tplBuildTags (tags : List String) : String :=
  buildTagLines tags ++ (if truth tags then "\n" else "")

/-- Template `header`. -/
def tplHeader (cliArgs : String) : String :=
  "// Code generated by \"mock-expect-gen " ++ htmlEscaper cliArgs ++ "\"; DO NOT EDIT."

/-- Template `package`. -/
def tplPackage (pkg : String) : String :=
  "package " ++ htmlEscaper pkg

/-- Template `imports`. -/
def tplImports : String :=
  "import (\n   \"fmt\"\n   mockapi \"github.com/mkeeler/mock-http-api\"\n)"

/-- Template `path-parameters`. -/
def tplPathParameters : List String → String
  | [] => ""
  | p :: ps => htmlEscaper p ++ " string," ++ tplPathParameters ps

/-- Template `reply`. -/
def tplReply (responseType : String) : String :=
  if responseType = "json" then "status int, reply interface\x7b\x7d"
  else if responseType = "string" then "status int, reply string"
  else if responseType = "stream" then "status int, reply io.Reader"
  else if responseType = "func" then "reply mockapi.MockResponse"
  else "status int"

/-- Template `query-params`. -/
def tplQueryParams (queryParams : List String) : String :=
  if truth queryParams then "queryParams map[string]string," else ""

/-- Template `request-headers`. -/
def tplRequestHeaders (headers : List String) : String :=
  if truth headers then "headers map[string]string," else ""

/-- Template `body`. -/
def tplBody (bodyType : String) : String :=
  if bodyType = "json" then "body map[string]interface\x7b\x7d,"
  else if bodyType = "string" ∨ bodyType = "stream" then "body []byte,"
  else ""

/-- Template `mock-type`. -/
def tplMockType (receiver : String) : String :=
  "type " ++ htmlEscaper receiver ++ " struct \x7b\n   *mockapi.MockAPI\n\x7d\n\nfunc New"
    ++ htmlEscaper receiver ++ "(t mockapi.TestingT) *" ++ htmlEscaper receiver
    ++ " \x7b\n\treturn &" ++ htmlEscaper receiver
    ++ "\x7b\n\t\tMockAPI: mockapi.NewMockAPI(t),\n\t\x7d\n\x7d"

/-- The loop `{{range $index, $param := .Spec.PathParameters}}` of
`endpoint-func-body`: a comma before every parameter whose index is not zero. -/
def sprintfArgs : Nat → List String → String
  | _, [] => ""
  | index, param :: rest =>
    (if index ≠ 0 then "," else "") ++ htmlEscaper param ++ sprintfArgs (index + 1) rest

/-- The path expression of `endpoint-func-body` (the `if .Spec.PathParameters`
block). -/
def pathExpr (spec : Endpoint) : String :=
  if truth spec.PathParameters then
    "fmt.Sprintf(\"" ++ htmlEscaper spec.Path ++ "\", " ++ sprintfArgs 0 spec.PathParameters ++ ")"
  else
    "\"" ++ htmlEscaper spec.Path ++ "\""

/-- The request-builder call of `endpoint-func-body`, up to its closing
parenthesis. -/
def requestBuilder (spec : Endpoint) : String :=
  "req := mockapi.NewMockRequest(\"" ++ htmlEscaper spec.Method ++ "\"," ++ pathExpr spec ++ ")"

/-- The block `if and (ne .Spec.BodyType "none") (ne .Spec.BodyType "")`. -/
def withBody (spec : Endpoint) : String :=
  if spec.BodyType ≠ "none" ∧ spec.BodyType ≠ "" then ".WithBody(body)" else ""

/-- The block `if .Spec.QueryParams`. -/
def withQueryParams (spec : Endpoint) : String :=
  if truth spec.QueryParams then ".WithQueryParams(queryParams)" else ""

/-- The block `if .Spec.Headers`. -/
def withHeaders (spec : Endpoint) : String :=
  if truth spec.Headers then ".WithHeaders(headers)" else ""

/-- The optional builder calls chained onto the request, in template order. -/
def builderChain (spec : Endpoint) : String :=
  withBody spec ++ withQueryParams spec ++ withHeaders spec

/-- The final `if eq .Spec.ResponseType ...` chain of `endpoint-func-body`; it has
no `else` branch. -/
def registrationCall (responseType : String) : String :=
  if responseType = "json" then "\n   return m.WithJSONReply(req, status, reply)"
  else if responseType = "string" then "\n   return m.WithTextReply(req, status, reply)"
  else if responseType = "stream" then "\n   return m.WithStreamingReply(req, status, reply)"
  else if responseType = "func" then "\n   return m.WithRequest(req, reply)"
  else if responseType = "none" ∨ responseType = "" then
    "\n   return m.WithNoResponseBody(req, status)"
  else ""

/-- Template `endpoint-func-body` (the constant `tplFunc`). -/
def tplFunc (e : tplEndpoint) : String :=
  requestBuilder e.Spec ++ builderChain e.Spec ++ "\n   " ++ registrationCall e.Spec.ResponseType

/-- The parameter list of a method: the five fragment calls between `(` and
`) *mockapi.MockAPICall {` in the file template. -/
def signatureParams (spec : Endpoint) : String :=
  tplPathParameters spec.PathParameters ++ tplRequestHeaders spec.Headers
    ++ tplQueryParams spec.QueryParams ++ tplBody spec.BodyType ++ tplReply spec.ResponseType

/-- The body of `{{ range .Endpoints }}` in the file template, for one endpoint. -/
def tplMethod (e : tplEndpoint) : String :=
  "\n\nfunc (m *MockConsulAPI) " ++ htmlEscaper e.Name ++ "(" ++ signatureParams e.Spec
    ++ ") *mockapi.MockAPICall \x7b\n" ++ tplFunc e ++ "\n\x7d"

/-- The loop `{{ range .Endpoints }}` of the file template. -/
def tplMethods : List tplEndpoint → String
  | [] => ""
  | e :: es => tplMethod e ++ tplMethods es

/-- The file template (the constant `tplFile`), executed on `args`. -/
def tplFile (args : tplArgs) : String :=
  tplBuildTags args.BuildTags ++ tplHeader args.CLIArgs ++ "\n\n" ++ tplPackage args.Package
    ++ "\n\n" ++ tplImports ++ "\n\n" ++ tplMockType args.Receiver ++ "\n"
    ++ tplMethods args.Endpoints

/-! ## The driver (`main`) -/

/-- The Go struct `config`. -/
structure config where
  input : String
  receiver : String
  output : String
  pkgName : String
  tags : List String
deriving DecidableEq, Repr

/-- The loop `for name, spec := range endpoints` of `main`: one `tplEndpoint` is
appended per map entry, in the order `order` in which the map is iterated. -/
def collectEndpoints (order : List (String × Endpoint)) : List tplEndpoint :=
  order.map fun p => ⟨p.1, p.2⟩

/-- The comparison handed to `sort.Slice` in `main`:
`args.Endpoints[i].Name < args.Endpoints[j].Name`. -/
def lessName (a b : tplEndpoint) : Bool :=
  decide (a.Name < b.Name)

/-- Insertion of `x` into a list: `x` is put in front of the first element it is
less than. -/
def insertLess {α : Type} (less : α → α → Bool) (x : α) : List α → List α
  | [] => [x]
  | y :: ys => if less x y then x :: y :: ys else y :: insertLess less x ys

/-- The standard library's `sort.Slice(xs, less)`, modelled by insertion sort: the
library only promises a permutation of `xs` ordered by `less`, and with unique
names that determines the result (`sortedEndpoints_unique`).  Go compares strings
byte by byte; on UTF-8 text that is the order of `String` here. -/
def sortSlice {α : Type} (less : α → α → Bool) : List α → List α
  | [] => []
  | x :: xs => insertLess less x (sortSlice less xs)

/-- The value of `args.Endpoints` after the loop and the `sort.Slice` call. -/
def sortedEndpoints (order : List (String × Endpoint)) : List tplEndpoint :=
  sortSlice lessName (collectEndpoints order)

/-- The value `args` that `main` hands to the template: `osArgs` is `os.Args[1:]`
and `order` the iteration order of the endpoint map. -/
def bindArgs (cfg : config) (osArgs : List String) (order : List (String × Endpoint)) :
    tplArgs :=
  { CLIArgs := " ".intercalate osArgs
    BuildTags := cfg.tags
    Package := cfg.pkgName
    Receiver := cfg.receiver
    Endpoints := sortedEndpoints order }

/-- The text that `tpl.Execute(&buf, args)` leaves in the buffer. -/
def render (cfg : config) (osArgs : List String) (order : List (String × Endpoint)) : String :=
  tplFile (bindArgs cfg osArgs order)

/-! ## Reading the generated text -/

/-- Whether the characters `pat` stand at the front of `s`. -/
def startsWith : List Char → List Char → Bool
  | [], _ => true
  | _ :: _, [] => false
  | p :: ps, c :: cs => p == c && startsWith ps cs

/-- The number of positions of `s` at which `pat` occurs. -/
def occurrencesIn (pat : List Char) : List Char → Nat
  | [] => 0
  | c :: cs => (if startsWith pat (c :: cs) then 1 else 0) + occurrencesIn pat cs

/-- The number of occurrences of the text `pat` in the text `s`. -/
def occurrences (pat s : String) : Nat :=
  occurrencesIn pat.toList s.toList

/-- The comma-separated items of a text. -/
def splitComma : List Char → List (List Char)
  | [] => [[]]
  | c :: cs =>
    match splitComma cs with
    | [] => [[]]
    | w :: ws => if c = ',' then [] :: w :: ws else (c :: w) :: ws

/-- The first word of an item: leading blanks are skipped, the word ends at the
next blank. -/
def firstWord (item : List Char) : String :=
  String.mk ((item.dropWhile fun c => c = ' ').takeWhile fun c => c ≠ ' ')

/-- The names declared by a Go parameter list such as `status int, reply string`:
the first word of each comma-separated item. -/
def paramNames (params : String) : List String :=
  (splitComma params.toList).map firstWord

/-- The arguments of the call that a line such as `return m.F(req, status)` makes:
the comma-separated items between the opening and the closing parenthesis. -/
def callArguments (call : String) : List String :=
  (splitComma (((call.toList.dropWhile fun c => c ≠ '(').drop 1).takeWhile
    fun c => c ≠ ')')).map firstWord

/-- The name of the method that a line such as `return m.F(req, status)` calls:
the text between `return m.` and the opening parenthesis. -/
def calledMethod (call : String) : String :=
  String.mk (((call.toList.dropWhile fun c => c ≠ '.').drop 1).takeWhile fun c => c ≠ '(')

/-- The lines of a text. -/
def splitLines : List Char → List (List Char)
  | [] => [[]]
  | c :: cs =>
    match splitLines cs with
    | [] => [[]]
    | w :: ws => if c.toNat = 10 then [] :: w :: ws else (c :: w) :: ws

/-- The import specs of a Go import block `import ( ... )`: the lines between the
opening line and the closing parenthesis, without their indentation. -/
def importSpecs (block : String) : List String :=
  (((splitLines block.toList).drop 1).dropLast).map fun l =>
    String.mk (l.dropWhile fun c => c = ' ')

/-- The import path of an import spec: the text between its two double quotes. -/
def importPath (spec : String) : String :=
  String.mk (((spec.toList.dropWhile fun c => c.toNat ≠ 34).drop 1).takeWhile
    fun c => c.toNat ≠ 34)

/-- A text without its white space (blanks, tabs and line breaks), which is what
the formatter is free to change between tokens. -/
def dropSpaces (s : String) : String :=
  String.mk (s.toList.filter fun c => !c.isWhitespace)

/-! ## The command line and the run of `main` -/

/-- What `flag.Parse` finds on the command line: for each string flag the value
given to it, `none` when the flag does not occur; for `-tag` the values given, in
order.  The parsing itself is the standard library's; a command line that it
refuses ends the process inside the library and is not a value of this type. -/
structure commandLine where
  outputFlag : Option String
  endpointsFlag : Option String
  typeFlag : Option String
  pkgFlag : Option String
  tagFlag : List String
deriving DecidableEq, Repr

/-- The observable actions of a run: `fmt.Fprintf(os.Stderr, format, args...)`,
`fmt.Printf(format, args...)`, a call of `flag.Usage()`, and
`ioutil.WriteFile(name, data, 0644)`. -/
inductive Event where
  | stderr (format : String) (args : List String)
  | stdout (format : String) (args : List String)
  | usage
  | writeFile (name : String) (data : String)
deriving DecidableEq, Repr

/-- A finished run: its actions in order and the exit status of the process. -/
structure Run where
  events : List Event
  exitCode : Nat
deriving DecidableEq, Repr

/-- The function `parseCLIFlags`.  `flag.StringVar` stores the value given on the
command line, or else the default registered for the flag: the empty string for
`-output`, `-type` and `-pkg`, the string `endpoints` for `-endpoints`.  A failed
check prints its message and the usage and calls `os.Exit(1)`: the result is then
the list of actions before the exit. -/
def parseCLIFlags (cl : commandLine) : Except (List Event) config :=
  let cfg : config :=
    { output := cl.outputFlag.getD ""
      input := cl.endpointsFlag.getD "endpoints"
      receiver := cl.typeFlag.getD ""
      pkgName := cl.pkgFlag.getD ""
      tags := cl.tagFlag }
  if cfg.input = "" then
    .error [.stderr "-endpoints is a required option\n\n" [], .usage]
  else if cfg.receiver = "" then
    .error [.stderr "-type is a required option\n\n" [], .usage]
  else if cfg.pkgName = "" then
    .error [.stderr "-pkg is a required option\n\n" [], .usage]
  else if cfg.output = "" then
    .error [.stderr "-output is a required option\n\n" [], .usage]
  else
    .ok cfg

/-- The surroundings of a run of `main`: the command line, and the outcome of every
call that leaves the program.  `readFile` is `ioutil.ReadFile`; `unmarshal` is
`json.Unmarshal` into the endpoint map, given as the entries in the order in which
the later `range` visits them; `execute` is `tpl.Execute` into the buffer;
`formatSource` is `format.Source`; `writeFile` is the error of `ioutil.WriteFile`,
`none` when it succeeds.  Errors are the texts that `%v` prints. -/
structure Env where
  flags : commandLine
  osArgs : List String
  readFile : String → Except String String
  unmarshal : String → Except String (List (String × Endpoint))
  execute : tplArgs → Except String String
  formatSource : String → Except String String
  writeFile : String → String → Option String

/-- The function `main`: every failure ends the run with `os.Exit(1)`. -/
def main (env : Env) : Run :=
  match parseCLIFlags env.flags with
  | .error evs => ⟨evs, 1⟩
  | .ok cfg =>
    match env.readFile cfg.input with
    | .error err =>
      ⟨[.stderr "Failed to load data from input file %q: %v\n" [cfg.input, err]], 1⟩
    | .ok data =>
      match env.unmarshal data with
      | .error err =>
        ⟨[.stderr "Failed to load JSON from input data file %q: %v\n" [cfg.input, err]], 1⟩
      | .ok order =>
        let args := bindArgs cfg env.osArgs order
        let generating := Event.stdout "Generating mock endpoints for %s\n" [cfg.input]
        match env.execute args with
        | .error err =>
          ⟨[generating, .stderr "Failed to render template: %v\n" [err]], 1⟩
        | .ok src =>
          match env.formatSource src with
          | .error err =>
            ⟨[generating, .stderr "Failed to format rendered source: %v\n" [err]], 1⟩
          | .ok formatted =>
            match env.writeFile cfg.output formatted with
            | some err =>
              ⟨[generating, .writeFile cfg.output formatted,
                .stderr "Failed to write generated source to file %s: %v\n" [cfg.output, err]],
               1⟩
            | none =>
              ⟨[generating, .writeFile cfg.output formatted,
                .stdout "Successfully generated source in %s\n" [cfg.output]], 0⟩

/-- The call `tpl.Execute(&buf, args)` on the templates of this file: on values of
the types above no action of the templates fails, and the buffer then holds the
text of the file template. -/
def templateExecute (args : tplArgs) : Except String String :=
  .ok (tplFile args)

/-- The content of the files after a run that started from `files`: every
`ioutil.WriteFile` of the run replaces the content of the file it names (a write
that reports an error is counted as a write); a run without `WriteFile` leaves
every file as it was. -/
def filesAfter (files : String → Option String) : List Event → String → Option String
  | [] => files
  | .writeFile name data :: evs =>
    filesAfter (fun path => if path = name then some data else files path) evs
  | _ :: evs => filesAfter files evs

/-! ## Properties of the escaper -/

theorem flatMap_htmlEscapeRune_eq_self (cs : List Char)
    (h : ∀ c ∈ cs, htmlReplacementTable c = none) : cs.flatMap htmlEscapeRune = cs := by
  induction cs with
  | nil => rfl
  | cons c cs ih =>
    have hc : htmlEscapeRune c = [c] := by
      simp [htmlEscapeRune, h c (List.mem_cons_self c cs)]
    have hcs : cs.flatMap htmlEscapeRune = cs :=
      ih fun d hd => h d (List.mem_cons_of_mem c hd)
    simp [List.flatMap_cons, hc, hcs]

/-- A string without any of the runes of the replacement table is written as it
is. -/
theorem htmlEscaper_eq_self (s : String)
    (h : ∀ c ∈ s.toList, htmlReplacementTable c = none) : htmlEscaper s = s := by
  unfold htmlEscaper
  rw [flatMap_htmlEscapeRune_eq_self s.toList h]
  rfl

/-! ## The dispatch on `responseType` -/

/-- The dispatch of `endpoint-func-body` emits the no-body call for `none` and for
the empty string. -/
theorem registrationCall_none_or_empty (rt : String) (h : rt = "none" ∨ rt = "") :
    registrationCall rt = "\n   return m.WithNoResponseBody(req, status)" := by
  rcases h with h | h <;> subst h <;> decide

/-- The dispatch of `endpoint-func-body` emits nothing for a value that is none of
the six strings it compares with. -/
theorem registrationCall_unrecognised (rt : String)
    (h : rt ∉ ["json", "string", "stream", "func", "none", ""]) :
    registrationCall rt = "" := by
  simp only [List.mem_cons, List.mem_singleton, List.not_mem_nil, or_false, not_or] at h
  obtain ⟨h1, h2, h3, h4, h5, h6⟩ := h
  simp [registrationCall, h1, h2, h3, h4, h5, h6]

/-- C1: at the unrecognised responseType `xml` the endpoint-func-body fragment
renders, but its dispatch has no branch for the value: no registration call is
emitted (the rendered function body ends after the request), while the reply
fragment takes its default branch and declares `status int`. -/
theorem C1_unrecognised_responseType_emits_no_call :
    registrationCall "xml" = "" ∧
    tplFunc ⟨"Ping", ⟨"GET", "/v1/ping", [], [], [], "none", "xml"⟩⟩
      = "req := mockapi.NewMockRequest(\"GET\",\"/v1/ping\")\n   " ∧
    occurrences "return m."
      (tplFunc ⟨"Ping", ⟨"GET", "/v1/ping", [], [], [], "none", "xml"⟩⟩) = 0 ∧
    tplReply "xml" = "status int" := by
  decide

/-- C2: with the receiver type `MockFooAPI` the file template declares
`type MockFooAPI struct` and `NewMockFooAPI`, but the method it renders for the
endpoint has the receiver `*MockConsulAPI`, the constant written in the template. -/
theorem C2_method_receiver_is_constant :
    tplFile ⟨"", "mocks", [], "MockFooAPI",
        [⟨"Ping", ⟨"GET", "/v1/ping", [], [], [], "none", "none"⟩⟩]⟩
      = "// Code generated by \"mock-expect-gen \"; DO NOT EDIT.\n\npackage mocks\n\n"
        ++ "import (\n   \"fmt\"\n   mockapi \"github.com/mkeeler/mock-http-api\"\n)\n\n"
        ++ "type MockFooAPI struct \x7b\n   *mockapi.MockAPI\n\x7d\n\n"
        ++ "func NewMockFooAPI(t mockapi.TestingT) *MockFooAPI \x7b\n"
        ++ "\treturn &MockFooAPI\x7b\n\t\tMockAPI: mockapi.NewMockAPI(t),\n\t\x7d\n\x7d\n"
        ++ "\n\nfunc (m *MockConsulAPI) Ping(status int) *mockapi.MockAPICall \x7b\n"
        ++ "req := mockapi.NewMockRequest(\"GET\",\"/v1/ping\")\n   \n"
        ++ "   return m.WithNoResponseBody(req, status)\n\x7d" := by
  decide

/-- C3: at the unrecognised bodyType `xml` the body fragment emits no `body`
parameter (the signature is `status int` alone), but endpoint-func-body chains
`.WithBody(body)` onto the request. -/
theorem C3_unrecognised_bodyType_body_call_without_parameter :
    tplBody "xml" = "" ∧
    signatureParams ⟨"PUT", "/v1/kv", [], [], [], "xml", "none"⟩ = "status int" ∧
    builderChain ⟨"PUT", "/v1/kv", [], [], [], "xml", "none"⟩ = ".WithBody(body)" ∧
    tplFunc ⟨"WriteKV", ⟨"PUT", "/v1/kv", [], [], [], "xml", "none"⟩⟩
      = "req := mockapi.NewMockRequest(\"PUT\",\"/v1/kv\").WithBody(body)\n   \n"
        ++ "   return m.WithNoResponseBody(req, status)" := by
  decide

/-- C4: for the invocation string `-type MockAPI -pkg mocks -output c++/api.go`
the header fragment does not contain the string verbatim: each `+` is written
`&#43;` by the escaper of `html/template`. -/
theorem C4_header_escapes_invocation_string :
    tplHeader "-type MockAPI -pkg mocks -output c++/api.go"
      = "// Code generated by \"mock-expect-gen -type MockAPI -pkg mocks -output "
        ++ "c&#43;&#43;/api.go\"; DO NOT EDIT." ∧
    tplHeader "-type MockAPI -pkg mocks -output c++/api.go"
      ≠ "// Code generated by \"mock-expect-gen "
        ++ "-type MockAPI -pkg mocks -output c++/api.go" ++ "\"; DO NOT EDIT." := by
  decide

/-! ## The order of the endpoint list -/

theorem insertLess_perm {α : Type} (less : α → α → Bool) (x : α) (l : List α) :
    (insertLess less x l).Perm (x :: l) := by
  induction l with
  | nil => exact List.Perm.refl _
  | cons y ys ih =>
    unfold insertLess
    split
    · exact List.Perm.refl _
    · exact (List.Perm.cons y ih).trans (List.Perm.swap x y ys)

theorem sortSlice_perm {α : Type} (less : α → α → Bool) (l : List α) :
    (sortSlice less l).Perm l := by
  induction l with
  | nil => exact List.Perm.refl _
  | cons x xs ih =>
    unfold sortSlice
    exact (insertLess_perm less x _).trans (List.Perm.cons x ih)

theorem insertLess_lessName_ascending (x : tplEndpoint) (l : List tplEndpoint)
    (h : l.Pairwise fun a b => a.Name ≤ b.Name) :
    (insertLess lessName x l).Pairwise fun a b => a.Name ≤ b.Name := by
  induction l with
  | nil => simp [insertLess]
  | cons y ys ih =>
    rw [List.pairwise_cons] at h
    unfold insertLess
    split
    · rename_i hxy
      have hlt : x.Name < y.Name := by simpa [lessName] using hxy
      refine List.pairwise_cons.2 ⟨?_, List.pairwise_cons.2 h⟩
      intro z hz
      rcases List.mem_cons.1 hz with hz | hz
      · subst hz; exact le_of_lt hlt
      · exact le_trans (le_of_lt hlt) (h.1 z hz)
    · rename_i hxy
      have hle : y.Name ≤ x.Name := by
        have : ¬ x.Name < y.Name := by simpa [lessName] using hxy
        exact not_lt.1 this
      refine List.pairwise_cons.2 ⟨?_, ih h.2⟩
      intro z hz
      rcases List.mem_cons.1 ((insertLess_perm lessName x ys).mem_iff.1 hz) with hz | hz
      · subst hz; exact hle
      · exact h.1 z hz

theorem sortSlice_lessName_ascending (l : List tplEndpoint) :
    (sortSlice lessName l).Pairwise fun a b => a.Name ≤ b.Name := by
  induction l with
  | nil => simp [sortSlice]
  | cons x xs ih =>
    unfold sortSlice
    exact insertLess_lessName_ascending x _ ih

theorem collectEndpoints_names (order : List (String × Endpoint)) :
    (collectEndpoints order).map tplEndpoint.Name = order.map Prod.fst := by
  simp [collectEndpoints, List.map_map, Function.comp_def]

theorem sortedEndpoints_perm (order : List (String × Endpoint)) :
    (sortedEndpoints order).Perm (collectEndpoints order) :=
  sortSlice_perm lessName _

/-- With unique names the sorted endpoint list is strictly ascending by name. -/
theorem sortedEndpoints_strictly_ascending (order : List (String × Endpoint))
    (hkeys : (order.map Prod.fst).Nodup) :
    (sortedEndpoints order).Pairwise fun a b => a.Name < b.Name := by
  have hnd : ((sortedEndpoints order).map tplEndpoint.Name).Nodup := by
    have hp := (sortedEndpoints_perm order).map tplEndpoint.Name
    rw [collectEndpoints_names] at hp
    exact hp.nodup_iff.2 hkeys
  have hne : (sortedEndpoints order).Pairwise fun a b => a.Name ≠ b.Name :=
    List.pairwise_map.1 hnd
  have hle : (sortedEndpoints order).Pairwise fun a b => a.Name ≤ b.Name :=
    sortSlice_lessName_ascending _
  exact (hle.and hne).imp fun h => lt_of_le_of_ne h.1 h.2

/-- Two strictly ascending lists with the same elements are the same list. -/
theorem eq_of_perm_of_strictly_ascending (l₁ l₂ : List tplEndpoint) (hp : l₁.Perm l₂)
    (h₁ : l₁.Pairwise fun a b => a.Name < b.Name)
    (h₂ : l₂.Pairwise fun a b => a.Name < b.Name) : l₁ = l₂ := by
  haveI : IsAntisymm tplEndpoint (fun a b => a.Name < b.Name) :=
    ⟨fun _ _ hab hba => absurd hba (lt_asymm hab)⟩
  exact List.eq_of_perm_of_sorted hp h₁ h₂

/-- The result does not depend on how `sort.Slice` sorts: with unique names, every
permutation of the collected endpoints in which no element is less than an earlier
one is the list `sortedEndpoints`. -/
theorem sortedEndpoints_unique (order : List (String × Endpoint)) (l : List tplEndpoint)
    (hkeys : (order.map Prod.fst).Nodup) (hperm : l.Perm (collectEndpoints order))
    (hsorted : l.Pairwise fun a b => lessName b a = false) : l = sortedEndpoints order := by
  apply eq_of_perm_of_strictly_ascending
  · exact hperm.trans (sortedEndpoints_perm order).symm
  · have hnd : (l.map tplEndpoint.Name).Nodup := by
      have hp := hperm.map tplEndpoint.Name
      rw [collectEndpoints_names] at hp
      exact hp.nodup_iff.2 hkeys
    have hne : l.Pairwise fun a b => a.Name ≠ b.Name := List.pairwise_map.1 hnd
    refine (hsorted.and hne).imp ?_
    intro a b h
    have hle : a.Name ≤ b.Name := by
      have : ¬ b.Name < a.Name := by simpa [lessName] using h.1
      exact not_lt.1 this
    exact lt_of_le_of_ne hle h.2
  · exact sortedEndpoints_strictly_ascending order hkeys

/-- C6: for the responseTypes `json`, `string`, `stream` and `func` the dispatch of
endpoint-func-body (the last part of the fragment, for every endpoint) is one
`return m.` line; the four lines call the pairwise distinct methods
`WithJSONReply`, `WithTextReply`, `WithStreamingReply` and `WithRequest`; and the
arguments of each call are `req` followed by the parameter names that the reply
fragment declares for the same responseType, in the same order: `status, reply`
for json, string and stream, `reply` alone for func. -/
theorem C6_registration_call_matches_reply_parameters :
    ["json", "string", "stream", "func"].map registrationCall
      = ["\n   return m.WithJSONReply(req, status, reply)",
         "\n   return m.WithTextReply(req, status, reply)",
         "\n   return m.WithStreamingReply(req, status, reply)",
         "\n   return m.WithRequest(req, reply)"] ∧
    ["json", "string", "stream", "func"].map
        (fun rt => occurrences "return m." (registrationCall rt)) = [1, 1, 1, 1] ∧
    ["json", "string", "stream", "func"].map (fun rt => calledMethod (registrationCall rt))
      = ["WithJSONReply", "WithTextReply", "WithStreamingReply", "WithRequest"] ∧
    ["WithJSONReply", "WithTextReply", "WithStreamingReply", "WithRequest"].Nodup ∧
    ["json", "string", "stream", "func"].map (fun rt => paramNames (tplReply rt))
      = [["status", "reply"], ["status", "reply"], ["status", "reply"], ["reply"]] ∧
    ["json", "string", "stream", "func"].map (fun rt => callArguments (registrationCall rt))
      = ["json", "string", "stream", "func"].map
          (fun rt => "req" :: paramNames (tplReply rt)) ∧
    ∀ e : tplEndpoint, tplFunc e
      = requestBuilder e.Spec ++ builderChain e.Spec ++ "\n   "
        ++ registrationCall e.Spec.ResponseType := by
  refine ⟨by decide, by decide, by decide, by decide, by decide, by decide, fun e => rfl⟩

/-- C7: the reply fragment gives `status int, reply interface{}` for `json`,
`status int, reply string` for `string`, `status int, reply io.Reader` for
`stream`, `reply mockapi.MockResponse` for `func`, and `status int` for every
other string, `none` and the empty string included. -/
theorem C7_reply_fragment_is_total :
    tplReply "json" = "status int, reply interface\x7b\x7d" ∧
    tplReply "string" = "status int, reply string" ∧
    tplReply "stream" = "status int, reply io.Reader" ∧
    tplReply "func" = "reply mockapi.MockResponse" ∧
    tplReply "none" = "status int" ∧
    tplReply "" = "status int" ∧
    ∀ rt : String, rt ∉ ["json", "string", "stream", "func"] → tplReply rt = "status int" := by
  refine ⟨by decide, by decide, by decide, by decide, by decide, by decide, ?_⟩
  intro rt h
  simp only [List.mem_cons, List.mem_singleton, List.not_mem_nil, or_false, not_or] at h
  obtain ⟨h1, h2, h3, h4⟩ := h
  simp [tplReply, h1, h2, h3, h4]

/-- C7 at the unrecognised responseType `xml`. -/
theorem C7_reply_fragment_is_total_witness :
    "xml" ∉ ["json", "string", "stream", "func"] ∧ tplReply "xml" = "status int" :=
  ⟨by decide, C7_reply_fragment_is_total.2.2.2.2.2.2 "xml" (by decide)⟩

/-- C8: the method that the file template renders for an endpoint has, between
`(` and `) *mockapi.MockAPICall {`, exactly the outputs of the path-parameters,
request-headers, query-params, body and reply fragments, in this order and with
nothing in between; when pathParameters, queryParams and headers are empty and
bodyType is `none`, the parameter list is the output of the reply fragment alone. -/
theorem C8_parameter_list_is_fragment_concatenation (e : tplEndpoint) :
    tplMethod e
      = "\n\nfunc (m *MockConsulAPI) " ++ htmlEscaper e.Name ++ "("
        ++ (tplPathParameters e.Spec.PathParameters ++ tplRequestHeaders e.Spec.Headers
          ++ tplQueryParams e.Spec.QueryParams ++ tplBody e.Spec.BodyType
          ++ tplReply e.Spec.ResponseType)
        ++ ") *mockapi.MockAPICall \x7b\n" ++ tplFunc e ++ "\n\x7d" ∧
    (e.Spec.PathParameters = [] → e.Spec.QueryParams = [] → e.Spec.Headers = [] →
      e.Spec.BodyType = "none" →
      signatureParams e.Spec = tplReply e.Spec.ResponseType ∧
      tplMethod e
        = "\n\nfunc (m *MockConsulAPI) " ++ htmlEscaper e.Name ++ "("
          ++ tplReply e.Spec.ResponseType
          ++ ") *mockapi.MockAPICall \x7b\n" ++ tplFunc e ++ "\n\x7d") := by
  refine ⟨rfl, ?_⟩
  intro hp hq hh hb
  have hs : signatureParams e.Spec = tplReply e.Spec.ResponseType := by
    simp [signatureParams, hp, hq, hh, hb, tplPathParameters, tplRequestHeaders,
      tplQueryParams, tplBody, truth]
  exact ⟨hs, by simp only [tplMethod, hs]⟩

/-- C8 at an endpoint without path parameters, query parameters, headers and
body, and with responseType `json`. -/
theorem C8_parameter_list_is_fragment_concatenation_witness :
    signatureParams ⟨"GET", "/v1/ping", [], [], [], "none", "json"⟩
      = "status int, reply interface\x7b\x7d" :=
  ((C8_parameter_list_is_fragment_concatenation
      ⟨"Ping", ⟨"GET", "/v1/ping", [], [], [], "none", "json"⟩⟩).2 rfl rfl rfl rfl).1

/-! ## The request of a method -/

theorem intercalate_go_sprintfArgs (index : Nat) (acc : String) (ps : List String) :
    String.intercalate.go acc "," (ps.map htmlEscaper) = acc ++ sprintfArgs (index + 1) ps := by
  induction ps generalizing acc index with
  | nil => simp [String.intercalate.go, sprintfArgs]
  | cons p ps ih =>
    simp only [List.map_cons, String.intercalate.go, sprintfArgs]
    rw [ih (index + 1)]
    simp [String.append_assoc]

/-- The arguments of `fmt.Sprintf` after the path are the escaped parameter names,
each once, in declared order, joined by single commas. -/
theorem sprintfArgs_eq_intercalate (ps : List String) :
    sprintfArgs 0 ps = ",".intercalate (ps.map htmlEscaper) := by
  cases ps with
  | nil => rfl
  | cons p ps =>
    simp only [List.map_cons, String.intercalate, sprintfArgs]
    rw [intercalate_go_sprintfArgs 0]
    simp

/-- The request-builder call of every endpoint, in terms of the escaper: the
method, the path and the parameter names are written as the escaper writes them. -/
theorem requestBuilder_eq (spec : Endpoint) :
    requestBuilder spec
      = "req := mockapi.NewMockRequest(\"" ++ htmlEscaper spec.Method ++ "\","
        ++ (if spec.PathParameters = [] then "\"" ++ htmlEscaper spec.Path ++ "\""
            else "fmt.Sprintf(\"" ++ htmlEscaper spec.Path ++ "\", "
              ++ ",".intercalate (spec.PathParameters.map htmlEscaper) ++ ")")
        ++ ")" := by
  unfold requestBuilder pathExpr truth
  rw [sprintfArgs_eq_intercalate]
  cases spec.PathParameters <;> simp

/-- The request of the endpoint `GET /v1/kv/%s` with the path parameter `key`. -/
theorem requestBuilder_readKV :
    requestBuilder ⟨"GET", "/v1/kv/%s", ["key"], [], [], "none", "json"⟩
      = "req := mockapi.NewMockRequest(\"GET\",fmt.Sprintf(\"/v1/kv/%s\", key))" := by
  decide

/-- C9: for the path `/v1/kv/%s?dc=%s&raw=true` with the path parameters `key`
and `dc` the request-builder call does not contain the path as declared: the
escaper of `html/template` writes its `&` as `&amp;`. -/
theorem C9_request_path_is_escaped :
    requestBuilder ⟨"GET", "/v1/kv/%s?dc=%s&raw=true", ["key", "dc"], [], [], "none", "json"⟩
      = "req := mockapi.NewMockRequest(\"GET\","
        ++ "fmt.Sprintf(\"/v1/kv/%s?dc=%s&amp;raw=true\", key,dc))" ∧
    requestBuilder ⟨"GET", "/v1/kv/%s?dc=%s&raw=true", ["key", "dc"], [], [], "none", "json"⟩
      ≠ "req := mockapi.NewMockRequest(\"GET\","
        ++ "fmt.Sprintf(\"" ++ "/v1/kv/%s?dc=%s&raw=true" ++ "\", key,dc))" := by
  decide

/-- The three optional calls as a function of the three conditions. -/
theorem builderChain_eq (spec : Endpoint) :
    builderChain spec
      = (if spec.BodyType ≠ "none" ∧ spec.BodyType ≠ "" then ".WithBody(body)" else "")
        ++ (if spec.QueryParams ≠ [] then ".WithQueryParams(queryParams)" else "")
        ++ (if spec.Headers ≠ [] then ".WithHeaders(headers)" else "") := by
  unfold builderChain withBody withQueryParams withHeaders truth
  cases spec.QueryParams <;> cases spec.Headers <;> simp

theorem chain_counts (b q h : Prop) [Decidable b] [Decidable q] [Decidable h] :
    occurrences ".WithBody(body)"
        ((if b then ".WithBody(body)" else "")
          ++ (if q then ".WithQueryParams(queryParams)" else "")
          ++ (if h then ".WithHeaders(headers)" else ""))
      = (if b then 1 else 0) ∧
    occurrences ".WithQueryParams(queryParams)"
        ((if b then ".WithBody(body)" else "")
          ++ (if q then ".WithQueryParams(queryParams)" else "")
          ++ (if h then ".WithHeaders(headers)" else ""))
      = (if q then 1 else 0) ∧
    occurrences ".WithHeaders(headers)"
        ((if b then ".WithBody(body)" else "")
          ++ (if q then ".WithQueryParams(queryParams)" else "")
          ++ (if h then ".WithHeaders(headers)" else ""))
      = (if h then 1 else 0) := by
  split_ifs <;> decide

/-- C10: the optional builder calls stand between the request and the dispatch, in
the fixed order `.WithBody(body)`, `.WithQueryParams(queryParams)`,
`.WithHeaders(headers)`; `.WithBody(body)` occurs once when bodyType is neither
`none` nor the empty string and not at all otherwise, `.WithQueryParams` once when
queryParams is not empty and not at all otherwise, `.WithHeaders` once when headers
is not empty and not at all otherwise. -/
theorem C10_builder_calls_fixed_order (e : tplEndpoint) :
    tplFunc e
      = requestBuilder e.Spec ++ builderChain e.Spec ++ "\n   "
        ++ registrationCall e.Spec.ResponseType ∧
    builderChain e.Spec
      = (if e.Spec.BodyType ≠ "none" ∧ e.Spec.BodyType ≠ "" then ".WithBody(body)" else "")
        ++ (if e.Spec.QueryParams ≠ [] then ".WithQueryParams(queryParams)" else "")
        ++ (if e.Spec.Headers ≠ [] then ".WithHeaders(headers)" else "") ∧
    occurrences ".WithBody(body)" (builderChain e.Spec)
      = (if e.Spec.BodyType ≠ "none" ∧ e.Spec.BodyType ≠ "" then 1 else 0) ∧
    occurrences ".WithQueryParams(queryParams)" (builderChain e.Spec)
      = (if e.Spec.QueryParams ≠ [] then 1 else 0) ∧
    occurrences ".WithHeaders(headers)" (builderChain e.Spec)
      = (if e.Spec.Headers ≠ [] then 1 else 0) := by
  refine ⟨rfl, builderChain_eq e.Spec, ?_⟩
  rw [builderChain_eq]
  exact chain_counts _ _ _

/-! ## The layout of the file -/

theorem join_cons (a : String) (l : List String) :
    String.join (a :: l) = a ++ String.join l := by
  apply String.ext
  simp [String.data_join]

theorem buildTagLines_eq_join (tags : List String) :
    buildTagLines tags
      = String.join (tags.map fun t => "// +build " ++ htmlEscaper t ++ "\n") := by
  induction tags with
  | nil => rfl
  | cons t ts ih => simp only [buildTagLines, List.map_cons, join_cons, ih]

/-- The build-tags fragment of every tag list, in terms of the escaper: one line
per tag, in order, and one more line break when there is a tag. -/
theorem tplBuildTags_eq (tags : List String) :
    tplBuildTags tags
      = String.join (tags.map fun t => "// +build " ++ htmlEscaper t ++ "\n")
        ++ (if tags = [] then "" else "\n") := by
  unfold tplBuildTags truth
  rw [buildTagLines_eq_join]
  cases tags <;> simp

/-- The build-tags fragment of the empty list and of the tags `a` and `b`. -/
theorem tplBuildTags_examples :
    tplBuildTags [] = "" ∧ tplBuildTags ["a", "b"] = "// +build a\n// +build b\n\n" := by
  decide

/-- C11: for the build tags `linux` and `c++` the second line of the build-tags
fragment is not `// +build c++`: the escaper of `html/template` writes each `+` of
the tag as `&#43;`. -/
theorem C11_build_tag_is_escaped :
    tplBuildTags ["linux", "c++"] = "// +build linux\n// +build c&#43;&#43;\n\n" ∧
    tplBuildTags ["linux", "c++"] ≠ "// +build linux\n// +build c++\n\n" := by
  decide

theorem tplMethods_eq_join (es : List tplEndpoint) :
    tplMethods es = String.join (es.map tplMethod) := by
  induction es with
  | nil => rfl
  | cons e es ih => simp only [tplMethods, List.map_cons, join_cons, ih]

/-- The layout of every rendered file, in terms of the escaper: the build-tags
fragment, the header fragment, the package fragment, the imports fragment and the
mock-type fragment, in this order and separated by line breaks only, followed by
one method declaration per element of the endpoint list, in list order; every
method declaration starts with `func (m ` and carries the name of its endpoint as
the escaper writes it; with no endpoint there is no method, and the text of a file
with two endpoints has two occurrences of `func (m `. -/
theorem tplFile_layout (args : tplArgs) :
    tplFile args
      = tplBuildTags args.BuildTags ++ tplHeader args.CLIArgs ++ "\n\n"
        ++ tplPackage args.Package ++ "\n\n" ++ tplImports ++ "\n\n"
        ++ tplMockType args.Receiver ++ "\n"
        ++ String.join (args.Endpoints.map tplMethod) ∧
    (args.Endpoints.map tplMethod).length = args.Endpoints.length ∧
    (∀ e : tplEndpoint, tplMethod e
      = "\n\nfunc (m *MockConsulAPI) " ++ htmlEscaper e.Name ++ "(" ++ signatureParams e.Spec
        ++ ") *mockapi.MockAPICall \x7b\n" ++ tplFunc e ++ "\n\x7d") ∧
    String.join (([] : List tplEndpoint).map tplMethod) = "" ∧
    occurrences "func (m " (tplFile ⟨"-type MockConsulAPI", "mocks", ["linux"], "MockConsulAPI", []⟩)
      = 0 ∧
    occurrences "func (m " (tplFile ⟨"-type MockConsulAPI", "mocks", ["linux"], "MockConsulAPI",
        [⟨"DeleteKV", ⟨"DELETE", "/v1/kv/%s", ["key"], [], [], "none", "none"⟩⟩,
         ⟨"ReadKV", ⟨"GET", "/v1/kv/%s", ["key"], [], [], "none", "json"⟩⟩]⟩) = 2 := by
  refine ⟨?_, by simp, fun e => rfl, rfl, by decide, by decide⟩
  unfold tplFile
  rw [tplMethods_eq_join]

/-- For a name without any rune of the replacement table (every Go identifier is
such a name) the method declaration carries the name of the endpoint unchanged. -/
theorem tplMethod_of_plain_name (e : tplEndpoint)
    (h : ∀ c ∈ e.Name.toList, htmlReplacementTable c = none) :
    tplMethod e
      = "\n\nfunc (m *MockConsulAPI) " ++ e.Name ++ "(" ++ signatureParams e.Spec
        ++ ") *mockapi.MockAPICall \x7b\n" ++ tplFunc e ++ "\n\x7d" := by
  unfold tplMethod
  rw [htmlEscaper_eq_self e.Name h]

/-- C12: for the endpoint list with the single endpoint `Get+Put` the rendered
file has the five fragments in their order and one method declaration, but the
method is not named by the endpoint's Name: the declaration reads
`func (m *MockConsulAPI) Get&#43;Put(`, the escaper of `html/template` having
written the `+` of the name as `&#43;`. -/
theorem C12_method_name_is_escaped :
    tplMethod ⟨"Get+Put", ⟨"GET", "/v1/kv", [], [], [], "none", "none"⟩⟩
      = "\n\nfunc (m *MockConsulAPI) Get&#43;Put(status int) *mockapi.MockAPICall \x7b\n"
        ++ "req := mockapi.NewMockRequest(\"GET\",\"/v1/kv\")\n   \n"
        ++ "   return m.WithNoResponseBody(req, status)\n\x7d" ∧
    tplMethod ⟨"Get+Put", ⟨"GET", "/v1/kv", [], [], [], "none", "none"⟩⟩
      ≠ "\n\nfunc (m *MockConsulAPI) " ++ "Get+Put"
        ++ "(status int) *mockapi.MockAPICall \x7b\n"
        ++ "req := mockapi.NewMockRequest(\"GET\",\"/v1/kv\")\n   \n"
        ++ "   return m.WithNoResponseBody(req, status)\n\x7d" ∧
    tplFile ⟨"-type MockConsulAPI", "mocks", [], "MockConsulAPI",
        [⟨"Get+Put", ⟨"GET", "/v1/kv", [], [], [], "none", "none"⟩⟩]⟩
      = "// Code generated by \"mock-expect-gen -type MockConsulAPI\"; DO NOT EDIT.\n\n"
        ++ "package mocks\n\n"
        ++ "import (\n   \"fmt\"\n   mockapi \"github.com/mkeeler/mock-http-api\"\n)\n\n"
        ++ "type MockConsulAPI struct \x7b\n   *mockapi.MockAPI\n\x7d\n\n"
        ++ "func NewMockConsulAPI(t mockapi.TestingT) *MockConsulAPI \x7b\n"
        ++ "\treturn &MockConsulAPI\x7b\n\t\tMockAPI: mockapi.NewMockAPI(t),\n\t\x7d\n\x7d\n"
        ++ "\n\nfunc (m *MockConsulAPI) Get&#43;Put(status int) *mockapi.MockAPICall \x7b\n"
        ++ "req := mockapi.NewMockRequest(\"GET\",\"/v1/kv\")\n   \n"
        ++ "   return m.WithNoResponseBody(req, status)\n\x7d" := by
  decide

/-- C13: for the endpoint map with the single entry `ReadKV` (method `GET`, path
`/v1/kv/%s`, path parameter `key`, responseType `json`, nothing else set), the
receiver type `MockConsulAPI`, the package `mocks` and no build tags, the rendered
text is, for every invocation string, the header line followed by
`package mocks`, the imports, `type MockConsulAPI struct` embedding
`*mockapi.MockAPI`, the constructor `NewMockConsulAPI` and one method; up to white
space the method is `func (m *MockConsulAPI) ReadKV(key string, status int, reply
interface{}) *mockapi.MockAPICall` with the body `req := mockapi.NewMockRequest("GET",
fmt.Sprintf("/v1/kv/%s", key))` followed by `return m.WithJSONReply(req, status,
reply)`, and it is the only `func (m ` of the text. -/
theorem C13_end_to_end_ReadKV (input output : String) (osArgs : List String) :
    render ⟨input, "MockConsulAPI", output, "mocks", []⟩ osArgs
        [("ReadKV", ⟨"GET", "/v1/kv/%s", ["key"], [], [], "", "json"⟩)]
      = tplHeader (" ".intercalate osArgs)
        ++ ("\n\npackage mocks\n\n"
        ++ "import (\n   \"fmt\"\n   mockapi \"github.com/mkeeler/mock-http-api\"\n)\n\n"
        ++ "type MockConsulAPI struct \x7b\n   *mockapi.MockAPI\n\x7d\n\n"
        ++ "func NewMockConsulAPI(t mockapi.TestingT) *MockConsulAPI \x7b\n"
        ++ "\treturn &MockConsulAPI\x7b\n\t\tMockAPI: mockapi.NewMockAPI(t),\n\t\x7d\n\x7d\n"
        ++ "\n\nfunc (m *MockConsulAPI) ReadKV(key string,status int, reply interface\x7b\x7d)"
        ++ " *mockapi.MockAPICall \x7b\n"
        ++ "req := mockapi.NewMockRequest(\"GET\",fmt.Sprintf(\"/v1/kv/%s\", key))\n   \n"
        ++ "   return m.WithJSONReply(req, status, reply)\n\x7d") ∧
    dropSpaces (tplMethods (sortedEndpoints
        [("ReadKV", ⟨"GET", "/v1/kv/%s", ["key"], [], [], "", "json"⟩)]))
      = dropSpaces ("func (m *MockConsulAPI) ReadKV(key string, status int, "
        ++ "reply interface\x7b\x7d) *mockapi.MockAPICall \x7b "
        ++ "req := mockapi.NewMockRequest(\"GET\", fmt.Sprintf(\"/v1/kv/%s\", key)) "
        ++ "return m.WithJSONReply(req, status, reply) \x7d") ∧
    occurrences "func (m "
        (render ⟨"endpoints.json", "MockConsulAPI", "mock_api.go", "mocks", []⟩
          ["-endpoints", "endpoints.json", "-type", "MockConsulAPI", "-pkg", "mocks",
           "-output", "mock_api.go"]
          [("ReadKV", ⟨"GET", "/v1/kv/%s", ["key"], [], [], "", "json"⟩)]) = 1 := by
  refine ⟨?_, by decide, by decide⟩
  have h : tplFile ⟨" ".intercalate osArgs, "mocks", [], "MockConsulAPI",
        [⟨"ReadKV", ⟨"GET", "/v1/kv/%s", ["key"], [], [], "", "json"⟩⟩]⟩
      = tplHeader (" ".intercalate osArgs)
        ++ ("\n\n" ++ (tplPackage "mocks" ++ ("\n\n" ++ (tplImports ++ ("\n\n"
        ++ (tplMockType "MockConsulAPI" ++ ("\n"
        ++ tplMethods [⟨"ReadKV", ⟨"GET", "/v1/kv/%s", ["key"], [], [], "", "json"⟩⟩]))))))) := by
    simp only [tplFile, tplBuildTags, buildTagLines, truth, String.append_assoc]
    simp
  have hrest : "\n\n" ++ (tplPackage "mocks" ++ ("\n\n" ++ (tplImports ++ ("\n\n"
        ++ (tplMockType "MockConsulAPI" ++ ("\n"
        ++ tplMethods [⟨"ReadKV", ⟨"GET", "/v1/kv/%s", ["key"], [], [], "", "json"⟩⟩]))))))
      = ("\n\npackage mocks\n\n"
        ++ "import (\n   \"fmt\"\n   mockapi \"github.com/mkeeler/mock-http-api\"\n)\n\n"
        ++ "type MockConsulAPI struct \x7b\n   *mockapi.MockAPI\n\x7d\n\n"
        ++ "func NewMockConsulAPI(t mockapi.TestingT) *MockConsulAPI \x7b\n"
        ++ "\treturn &MockConsulAPI\x7b\n\t\tMockAPI: mockapi.NewMockAPI(t),\n\t\x7d\n\x7d\n"
        ++ "\n\nfunc (m *MockConsulAPI) ReadKV(key string,status int, reply interface\x7b\x7d)"
        ++ " *mockapi.MockAPICall \x7b\n"
        ++ "req := mockapi.NewMockRequest(\"GET\",fmt.Sprintf(\"/v1/kv/%s\", key))\n   \n"
        ++ "   return m.WithJSONReply(req, status, reply)\n\x7d") := by
    decide
  have hargs : bindArgs ⟨input, "MockConsulAPI", output, "mocks", []⟩ osArgs
        [("ReadKV", ⟨"GET", "/v1/kv/%s", ["key"], [], [], "", "json"⟩)]
      = ⟨" ".intercalate osArgs, "mocks", [], "MockConsulAPI",
        [⟨"ReadKV", ⟨"GET", "/v1/kv/%s", ["key"], [], [], "", "json"⟩⟩]⟩ := rfl
  rw [render, hargs, h, hrest]

/-! ## The command line and the run -/

/-- Without a value for `-type`, `-pkg` or `-output` the function prints the usage
and exits instead of returning a configuration. -/
theorem parseCLIFlags_missing_type_pkg_output (cl : commandLine)
    (h : cl.typeFlag = none ∨ cl.pkgFlag = none ∨ cl.outputFlag = none) :
    ∃ evs, parseCLIFlags cl = .error evs ∧ Event.usage ∈ evs := by
  unfold parseCLIFlags
  simp only []
  split_ifs with h1 h2 h3 h4
  · exact ⟨_, rfl, by simp⟩
  · exact ⟨_, rfl, by simp⟩
  · exact ⟨_, rfl, by simp⟩
  · exact ⟨_, rfl, by simp⟩
  · exfalso
    rcases h with h | h | h
    · exact h2 (by simp [h])
    · exact h3 (by simp [h])
    · exact h4 (by simp [h])

/-- A run whose command line is refused ends with the exit status 1 and only the
actions of `parseCLIFlags`. -/
theorem main_of_parse_error (env : Env) (evs : List Event)
    (h : parseCLIFlags env.flags = .error evs) : main env = ⟨evs, 1⟩ := by
  simp [main, h]

/-- C14: with `-type`, `-pkg` and `-output` given and `-endpoints` missing,
`parseCLIFlags` returns a configuration whose input file is the default
`endpoints` of the flag; it neither prints the usage nor exits. -/
theorem C14_missing_endpoints_flag_returns_configuration :
    parseCLIFlags ⟨some "mock_api.go", none, some "MockConsulAPI", some "mocks", []⟩
      = .ok ⟨"endpoints", "MockConsulAPI", "mock_api.go", "mocks", []⟩ := by
  rfl

/-- C15: in a run that reaches the rendering step (the command line is accepted,
the input file is read and parsed), an error of the template execution or of the
formatting step ends the run with the exit status 1 without any `WriteFile`, so
that every file keeps its content; and a `WriteFile` of a run names the configured
output file and writes the successful result of the formatter, applied to the
rendered text. -/
theorem C15_no_write_unless_formatted (env : Env) (cfg : config) (data : String)
    (order : List (String × Endpoint))
    (hcfg : parseCLIFlags env.flags = .ok cfg)
    (hread : env.readFile cfg.input = .ok data)
    (hjson : env.unmarshal data = .ok order) :
    (∀ err, env.execute (bindArgs cfg env.osArgs order) = .error err →
      (main env).exitCode = 1 ∧ (∀ n d, Event.writeFile n d ∉ (main env).events) ∧
      ∀ files, filesAfter files (main env).events = files) ∧
    (∀ src err, env.execute (bindArgs cfg env.osArgs order) = .ok src →
      env.formatSource src = .error err →
      (main env).exitCode = 1 ∧ (∀ n d, Event.writeFile n d ∉ (main env).events) ∧
      ∀ files, filesAfter files (main env).events = files) ∧
    (∀ n d, Event.writeFile n d ∈ (main env).events →
      n = cfg.output ∧ ∃ src, env.execute (bindArgs cfg env.osArgs order) = .ok src ∧
        env.formatSource src = .ok d) := by
  refine ⟨?_, ?_, ?_⟩
  · intro err hexec
    simp [main, hcfg, hread, hjson, hexec, filesAfter]
  · intro src err hexec hfmt
    simp [main, hcfg, hread, hjson, hexec, hfmt, filesAfter]
  · intro n d hmem
    simp only [main, hcfg, hread, hjson] at hmem
    cases hexec : env.execute (bindArgs cfg env.osArgs order) with
    | error err => simp [hexec] at hmem
    | ok src =>
      simp only [hexec] at hmem
      cases hfmt : env.formatSource src with
      | error err => simp [hfmt] at hmem
      | ok formatted =>
        simp only [hfmt] at hmem
        cases hw : env.writeFile cfg.output formatted with
        | none =>
          simp [hw] at hmem
          exact ⟨hmem.1, by simp [hmem.2, hfmt]⟩
        | some werr =>
          simp [hw] at hmem
          exact ⟨hmem.1, by simp [hmem.2, hfmt]⟩

/-- C15 at a run whose rendered text the formatter refuses. -/
theorem C15_no_write_unless_formatted_witness :
    (main ⟨⟨some "mock_api.go", some "endpoints.json", some "MockConsulAPI", some "mocks", []⟩,
        ["-type", "MockConsulAPI"], fun _ => .ok "", fun _ => .ok [], templateExecute,
        fun _ => .error "1:1: expected declaration", fun _ _ => none⟩).exitCode = 1 ∧
    ∀ n d, Event.writeFile n d ∉
      (main ⟨⟨some "mock_api.go", some "endpoints.json", some "MockConsulAPI", some "mocks", []⟩,
        ["-type", "MockConsulAPI"], fun _ => .ok "", fun _ => .ok [], templateExecute,
        fun _ => .error "1:1: expected declaration", fun _ _ => none⟩).events :=
  ⟨((C15_no_write_unless_formatted
      ⟨⟨some "mock_api.go", some "endpoints.json", some "MockConsulAPI", some "mocks", []⟩,
        ["-type", "MockConsulAPI"], fun _ => .ok "", fun _ => .ok [], templateExecute,
        fun _ => .error "1:1: expected declaration", fun _ _ => none⟩
      ⟨"endpoints.json", "MockConsulAPI", "mock_api.go", "mocks", []⟩ "" [] rfl rfl rfl).2.1
      _ "1:1: expected declaration" rfl rfl).1,
   ((C15_no_write_unless_formatted
      ⟨⟨some "mock_api.go", some "endpoints.json", some "MockConsulAPI", some "mocks", []⟩,
        ["-type", "MockConsulAPI"], fun _ => .ok "", fun _ => .ok [], templateExecute,
        fun _ => .error "1:1: expected declaration", fun _ _ => none⟩
      ⟨"endpoints.json", "MockConsulAPI", "mock_api.go", "mocks", []⟩ "" [] rfl rfl rfl).2.1
      _ "1:1: expected declaration" rfl rfl).2.1⟩

/-! ## The parameter fragments -/

/-- C16: the query-params fragment gives `queryParams map[string]string,` when
queryParams is not empty and nothing otherwise, the request-headers fragment gives
`headers map[string]string,` when headers is not empty and nothing otherwise; both
stand in the signature between the path parameters and the body parameter; any two
non-empty sequences give the same output; and each parameter occurs as often (once
or not at all) as the call `.WithQueryParams(queryParams)` or
`.WithHeaders(headers)` in the builder chain of the function body. -/
theorem C16_presence_driven_parameters (spec : Endpoint) :
    tplQueryParams spec.QueryParams
      = (if spec.QueryParams ≠ [] then "queryParams map[string]string," else "") ∧
    tplRequestHeaders spec.Headers
      = (if spec.Headers ≠ [] then "headers map[string]string," else "") ∧
    signatureParams spec
      = tplPathParameters spec.PathParameters ++ tplRequestHeaders spec.Headers
        ++ tplQueryParams spec.QueryParams ++ tplBody spec.BodyType
        ++ tplReply spec.ResponseType ∧
    builderChain spec = withBody spec ++ withQueryParams spec ++ withHeaders spec ∧
    occurrences "queryParams map[string]string," (tplQueryParams spec.QueryParams)
      = occurrences ".WithQueryParams(queryParams)" (withQueryParams spec) ∧
    occurrences "queryParams map[string]string," (tplQueryParams spec.QueryParams)
      = (if spec.QueryParams ≠ [] then 1 else 0) ∧
    occurrences "headers map[string]string," (tplRequestHeaders spec.Headers)
      = occurrences ".WithHeaders(headers)" (withHeaders spec) ∧
    occurrences "headers map[string]string," (tplRequestHeaders spec.Headers)
      = (if spec.Headers ≠ [] then 1 else 0) ∧
    (∀ qs qs2 : List String, qs ≠ [] → qs2 ≠ [] →
      tplQueryParams qs = tplQueryParams qs2 ∧ tplRequestHeaders qs = tplRequestHeaders qs2) := by
  refine ⟨?_, ?_, rfl, rfl, ?_, ?_, ?_, ?_, ?_⟩
  · unfold tplQueryParams truth; cases spec.QueryParams <;> simp
  · unfold tplRequestHeaders truth; cases spec.Headers <;> simp
  · unfold tplQueryParams withQueryParams truth; cases spec.QueryParams <;> rfl
  · unfold tplQueryParams truth; cases spec.QueryParams <;> rfl
  · unfold tplRequestHeaders withHeaders truth; cases spec.Headers <;> rfl
  · unfold tplRequestHeaders truth; cases spec.Headers <;> rfl
  · intro qs qs2 h1 h2
    cases qs with
    | nil => exact absurd rfl h1
    | cons a as =>
      cases qs2 with
      | nil => exact absurd rfl h2
      | cons b bs => exact ⟨rfl, rfl⟩

/-- C16 at the sequences `dc` and `recurse, keys`. -/
theorem C16_presence_driven_parameters_witness :
    tplQueryParams ["dc"] = tplQueryParams ["recurse", "keys"] ∧
    tplRequestHeaders ["dc"] = tplRequestHeaders ["recurse", "keys"] :=
  (C16_presence_driven_parameters ⟨"GET", "/v1/kv", [], ["dc"], [], "none", "none"⟩).2.2.2.2.2.2.2.2
    ["dc"] ["recurse", "keys"] (by decide) (by decide)

/-- C17: the body fragment gives `body map[string]interface{},` for `json`,
`body []byte,` for `string` and for `stream`, and the empty string for every other
string, `none` and the empty string included. -/
theorem C17_body_fragment_is_total :
    tplBody "json" = "body map[string]interface\x7b\x7d," ∧
    tplBody "string" = "body []byte," ∧
    tplBody "stream" = "body []byte," ∧
    tplBody "none" = "" ∧
    tplBody "" = "" ∧
    ∀ bt : String, bt ∉ ["json", "string", "stream"] → tplBody bt = "" := by
  refine ⟨by decide, by decide, by decide, by decide, by decide, ?_⟩
  intro bt h
  simp only [List.mem_cons, List.mem_singleton, List.not_mem_nil, or_false, not_or] at h
  obtain ⟨h1, h2, h3⟩ := h
  simp [tplBody, h1, h2, h3]

/-- C17 at the unrecognised bodyType `xml`. -/
theorem C17_body_fragment_is_total_witness :
    "xml" ∉ ["json", "string", "stream"] ∧ tplBody "xml" = "" :=
  ⟨by decide, C17_body_fragment_is_total.2.2.2.2.2 "xml" (by decide)⟩

/-- The path-parameters fragment of every sequence, in terms of the escaper: one
item per name, in order. -/
theorem tplPathParameters_eq_join (ps : List String) :
    tplPathParameters ps = String.join (ps.map fun p => htmlEscaper p ++ " string,") := by
  induction ps with
  | nil => rfl
  | cons p ps ih => simp only [tplPathParameters, List.map_cons, join_cons, ih, String.append_assoc]

/-- For names without any rune of the replacement table (all Go identifiers are
such names) the path-parameters fragment is the concatenation of `p string,`. -/
theorem tplPathParameters_of_plain_names (ps : List String)
    (h : ∀ p ∈ ps, ∀ c ∈ p.toList, htmlReplacementTable c = none) :
    tplPathParameters ps = String.join (ps.map fun p => p ++ " string,") := by
  induction ps with
  | nil => rfl
  | cons p ps ih =>
    have hp : htmlEscaper p = p := htmlEscaper_eq_self p (h p (List.mem_cons_self p ps))
    have hps := ih fun q hq => h q (List.mem_cons_of_mem p hq)
    simp only [tplPathParameters, List.map_cons, join_cons, hp, hps, String.append_assoc]

/-- The path-parameters fragment of the empty sequence and of the names `key` and
`dc`. -/
theorem tplPathParameters_examples :
    tplPathParameters [] = "" ∧ tplPathParameters ["key", "dc"] = "key string,dc string," := by
  decide

/-- C18: for the parameter names `key` and `a+b` the path-parameters fragment does
not render `a+b string,`: the escaper of `html/template` writes the `+` of the name
as `&#43;`. -/
theorem C18_path_parameter_name_is_escaped :
    tplPathParameters ["key", "a+b"] = "key string,a&#43;b string," ∧
    tplPathParameters ["key", "a+b"] ≠ "key string," ++ "a+b string," := by
  decide

/-- C19: the imports fragment is one constant text, placed into every rendered
file whatever the configuration and the endpoints are; it lists the two imports
`"fmt"` and `mockapi "github.com/mkeeler/mock-http-api"` and so does not import
`io`; yet for every endpoint with the responseType `stream` the signature ends with
`status int, reply io.Reader`, as in the file rendered for the endpoint `Tail`,
which uses `io.Reader` without any `"io"` in its text. -/
theorem C19_imports_are_constant_without_io :
    (∀ args : tplArgs, tplFile args
      = tplBuildTags args.BuildTags ++ tplHeader args.CLIArgs ++ "\n\n"
        ++ tplPackage args.Package ++ "\n\n" ++ tplImports ++ "\n\n"
        ++ tplMockType args.Receiver ++ "\n" ++ tplMethods args.Endpoints) ∧
    tplImports = "import (\n   \"fmt\"\n   mockapi \"github.com/mkeeler/mock-http-api\"\n)" ∧
    (importSpecs tplImports
      = ["\"fmt\"", "mockapi \"github.com/mkeeler/mock-http-api\""]) ∧
    (importSpecs tplImports).map importPath = ["fmt", "github.com/mkeeler/mock-http-api"] ∧
    "io" ∉ (importSpecs tplImports).map importPath ∧
    (∀ spec : Endpoint, spec.ResponseType = "stream" →
      signatureParams spec
        = tplPathParameters spec.PathParameters ++ tplRequestHeaders spec.Headers
          ++ tplQueryParams spec.QueryParams ++ tplBody spec.BodyType
          ++ "status int, reply io.Reader") ∧
    occurrences "io.Reader"
        (tplFile ⟨"-type MockConsulAPI", "mocks", [], "MockConsulAPI",
          [⟨"Tail", ⟨"GET", "/v1/log", [], [], [], "none", "stream"⟩⟩]⟩) = 1 ∧
    occurrences "\"io\""
        (tplFile ⟨"-type MockConsulAPI", "mocks", [], "MockConsulAPI",
          [⟨"Tail", ⟨"GET", "/v1/log", [], [], [], "none", "stream"⟩⟩]⟩) = 0 := by
  refine ⟨fun _ => rfl, rfl, by decide, by decide, by decide, ?_, by decide, by decide⟩
  intro spec h
  simp [signatureParams, tplReply, h]

/-- C19 at the endpoint `Tail` with the responseType `stream`. -/
theorem C19_imports_are_constant_without_io_witness :
    signatureParams ⟨"GET", "/v1/log", [], [], [], "none", "stream"⟩
      = "status int, reply io.Reader" :=
  C19_imports_are_constant_without_io.2.2.2.2.2.1
    ⟨"GET", "/v1/log", [], [], [], "none", "stream"⟩ rfl

end MockExpectGen
